import Mathlib

/-
Verification of the memories-downloader fetch pipeline (src/main.py).

The development shallowly embeds the pure entry-resolution helpers
(sanitize_filename, MemoryDownloader._parse_date, _infer_extension,
_get_download_endpoint, the snap-id extraction inline in _download_single)
as Lean functions over lists of characters, and the effectful worker
(_download_single) and coordinator (download_all) as explicit state
passing over a record of counters, a modelled file system, and an
environment supplying the wall clock and the outcomes of the two HTTP
phases.  Machine integers do not occur (all counts are small Nat values),
and every fallible code path returns Except or Option.
-/

/-- A calendar timestamp, standing for a Python datetime value. -/
structure DateTime where
  year : Nat
  month : Nat
  day : Nat
  hour : Nat
  minute : Nat
  second : Nat
deriving DecidableEq

/-- The code points CPython classifies as whitespace: str.isspace() and
the regex whitespace class match exactly this set, and str.strip() with
no argument removes exactly these characters. -/
def pySpaceCodes : List Nat :=
  [0x09, 0x0a, 0x0b, 0x0c, 0x0d, 0x1c, 0x1d, 0x1e, 0x1f, 0x20, 0x85, 0xa0,
   0x1680, 0x2000, 0x2001, 0x2002, 0x2003, 0x2004, 0x2005, 0x2006, 0x2007,
   0x2008, 0x2009, 0x200a, 0x2028, 0x2029, 0x202f, 0x205f, 0x3000]

/-- Python whitespace test over one character. -/
def isPySpace (c : Char) : Bool :=
  pySpaceCodes.contains c.toNat

/-- str.strip(): drop whitespace from both ends. -/
def pyStrip (l : List Char) : List Char :=
  ((l.dropWhile isPySpace).reverse.dropWhile isPySpace).reverse

/-- Numeric value of a run of decimal digits. -/
def digitsVal (l : List Char) : Nat :=
  l.foldl (fun n c => n * 10 + (c.toNat - 48)) 0

/-- One numeric field of strptime: a run of digits whose length lies in
the range permitted by the format directive and whose value lies in the
range accepted by the directive regex together with the datetime
constructor. -/
def numField (minL maxL lo hi : Nat) (l : List Char) : Option (Nat × List Char) :=
  let ds := l.takeWhile Char.isDigit
  if minL ≤ ds.length ∧ ds.length ≤ maxL ∧ lo ≤ digitsVal ds ∧ digitsVal ds ≤ hi then
    some (digitsVal ds, l.dropWhile Char.isDigit)
  else none

/-- Consume one expected literal character. -/
def litChar (c : Char) : List Char → Option (List Char)
  | [] => none
  | x :: r => if x = c then some r else none

/-- Length of February and friends, as validated by the Python datetime
constructor after strptime has matched the directives. -/
def daysInMonth (y m : Nat) : Nat :=
  if m = 2 then (if (y % 4 = 0 ∧ ¬ y % 100 = 0) ∨ y % 400 = 0 then 29 else 28)
  else if m = 4 ∨ m = 6 ∨ m = 9 ∨ m = 11 then 30
  else 31

/-- The separator between the date and time halves of the two formats
used by _parse_date.  CPython compiles the strptime format with the
regex ignore-case flag and rewrites whitespace in the format to a
one-or-more-whitespace pattern, so the blank of the first format
matches any positive run of Python whitespace characters, and the
literal letter T of the second format matches either letter case. -/
inductive SepKind where
  | spaces
  | letterT
deriving DecidableEq

/-- Consume the date-time separator as the compiled strptime regex
does. -/
def matchSep : SepKind → List Char → Option (List Char)
  | _, [] => none
  | SepKind.spaces, c :: r => if isPySpace c then some (r.dropWhile isPySpace) else none
  | SepKind.letterT, c :: r => if c = 'T' ∨ c = 't' then some r else none

/-- datetime.strptime(raw, fmt) for the two formats used by _parse_date,
which differ only in the separator between date and time.  The directive
regexes take percent-Y as exactly four digits and the other fields as one
or two digits within range; the datetime constructor then rejects year 0,
seconds above 59 and days beyond the month length, which is folded into
the range checks here.  The hyphen and colon separators are punctuation,
untouched by the ignore-case flag. -/
def parseFmt (sep : SepKind) (l : List Char) : Option DateTime := do
  let (y, r1) ← numField 4 4 1 9999 l
  let r2 ← litChar '-' r1
  let (mo, r3) ← numField 1 2 1 12 r2
  let r4 ← litChar '-' r3
  let (d, r5) ← numField 1 2 1 31 r4
  let r6 ← matchSep sep r5
  let (h, r7) ← numField 1 2 0 23 r6
  let r8 ← litChar ':' r7
  let (mi, r9) ← numField 1 2 0 59 r8
  let r10 ← litChar ':' r9
  let (s, r11) ← numField 1 2 0 59 r10
  if r11 = [] ∧ d ≤ daysInMonth y mo then some ⟨y, mo, d, h, mi, s⟩ else none

/-- raw.replace(" UTC", ""): remove every occurrence of the four
characters space, U, T, C, scanning left to right and continuing after
each removal. -/
def removeUTC : List Char → List Char
  | [] => []
  | [c] => [c]
  | [c, c2] => [c, c2]
  | [c, c2, c3] => [c, c2, c3]
  | c :: c2 :: c3 :: c4 :: rest =>
    if c = ' ' ∧ c2 = 'U' ∧ c3 = 'T' ∧ c4 = 'C' then removeUTC rest
    else c :: removeUTC (c2 :: c3 :: c4 :: rest)

/-- One manifest entry: the JSON object, modelled as an association list
of string keys to string values (dict lookup is by exact key). -/
abbrev Entry := List (String × String)

/-- memory.get(key): first binding of the exact key, if any. -/
def getField (e : Entry) (key : String) : Option String :=
  (e.find? (fun p => p.1 == key)).map (fun p => p.2)

/-- The Python expression a or b over optional strings: a missing value
and the empty string are falsy. -/
def pyOr (a b : Option String) : Option String :=
  match a with
  | some s => if s = "" then b else some s
  | none => b

/-- memory.get("Date") or memory.get("date") or "". -/
def rawDate (e : Entry) : String :=
  (pyOr (getField e "Date") (getField e "date")).getD ""

/-- The strptime loop of _parse_date applied to an already extracted and
cleaned raw string: try the space-separated format, then the T-separated
format. -/
def parseRaw (raw : List Char) : Option DateTime :=
  match parseFmt SepKind.spaces raw with
  | some d => some d
  | none => parseFmt SepKind.letterT raw

/-- The date _parse_date would return when it does not fall back to the
current time: clean the raw field value and run the format loop. -/
def parseDateOpt (e : Entry) : Option DateTime :=
  parseRaw (pyStrip (removeUTC (rawDate e).toList))

/-- MemoryDownloader._parse_date: parse the Date field, falling back to
datetime.now() (passed in as now) when both formats fail. -/
def parse_date (now : DateTime) (e : Entry) : DateTime :=
  (parseDateOpt e).getD now

/-- Python str.upper() over ASCII letters. -/
def pyUpper (s : String) : String :=
  (s.toList.map Char.toUpper).asString

/-- MemoryDownloader._infer_extension: map the Media Type field to a file
extension. -/
def infer_extension (e : Entry) : String :=
  let mtype := pyUpper ((pyOr (getField e "Media Type") (getField e "media_type")).getD "")
  if mtype = "VIDEO" then ".mp4"
  else if mtype = "PHOTO" then ".jpg"
  else ".bin"

/-- MemoryDownloader._get_download_endpoint: the Download Link field,
where a missing value or an empty string raises ValueError. -/
def get_download_endpoint (e : Entry) : Except String String :=
  match pyOr (getField e "Download Link") (getField e "download_link") with
  | none => Except.error "No Download Link in memory entry"
  | some s =>
    if s = "" then Except.error "No Download Link in memory entry"
    else Except.ok s

/-- Whether pat occurs as a contiguous sublist (Python in operator). -/
def containsSub (pat : List Char) : List Char → Bool
  | [] => pat.isEmpty
  | c :: t => pat.isPrefixOf (c :: t) || containsSub pat t

/-- s.split(pat, 1)[1]: everything after the first occurrence of pat. -/
def afterFirst (pat : List Char) : List Char → List Char
  | [] => []
  | c :: t => if pat.isPrefixOf (c :: t) then (c :: t).drop pat.length else afterFirst pat t

/-- s.split(pat, 1)[0]: everything before the first occurrence of pat,
or the whole list when pat does not occur. -/
def beforeFirst (pat : List Char) : List Char → List Char
  | [] => []
  | c :: t => if pat.isPrefixOf (c :: t) then [] else c :: beforeFirst pat t

/-- Index of the first occurrence of pat, if any. -/
def indexOfSub (pat : List Char) : List Char → Option Nat
  | [] => if pat.isEmpty then some 0 else none
  | c :: t => if pat.isPrefixOf (c :: t) then some 0 else (indexOfSub pat t).map (· + 1)

def midMark : List Char := ['&', 'm', 'i', 'd', '=']

def idMark : List Char := ['i', 'd', '=']

def ampMark : List Char := ['&']

/-- The snap-identifier extraction inlined in _download_single: split on
the first ampersand-mid marker, else on the first id marker, keeping the
part before the next ampersand; otherwise the literal string id. -/
def extract_snap_id (dl : String) : String :=
  let l := dl.toList
  if containsSub midMark l then (beforeFirst ampMark (afterFirst midMark l)).asString
  else if containsSub idMark l then (beforeFirst ampMark (afterFirst idMark l)).asString
  else "id"

/-- Identifier extraction as the specification words it: scan the
endpoint URL for the first ampersand-mid marker, else the first id
marker, taking the substring after the marker up to the next ampersand
or the end of the string as the snap identifier; if neither marker is
present, fall back to the literal string id. -/
def snapIdSpec (dl : String) : String :=
  let l := dl.toList
  match indexOfSub midMark l with
  | some i => ((l.drop (i + midMark.length)).takeWhile (fun c => c != '&')).asString
  | none =>
    match indexOfSub idMark l with
    | some i => ((l.drop (i + idMark.length)).takeWhile (fun c => c != '&')).asString
    | none => "id"

/-- The characters sanitize_filename replaces. -/
def badChars : List Char := ['<', '>', ':', '"', '/', '\\', '|', '?', '*']

/-- name.replace(ch, underscore) for one character ch. -/
def replaceChar (c r : Char) (l : List Char) : List Char :=
  l.map (fun x => if x = c then r else x)

/-- The replacement loop of sanitize_filename: one replace per bad
character, in order. -/
def sanitizeCore (l : List Char) : List Char :=
  badChars.foldl (fun acc c => replaceChar c '_' acc) l

/-- sanitize_filename: replace each reserved character with an
underscore, then strip surrounding whitespace. -/
def sanitize_filename (name : String) : String :=
  (pyStrip (sanitizeCore name.toList)).asString

/-- The sanitizer as the specification words it: every occurrence of
every reserved character is replaced by an underscore in one pass, and
surrounding whitespace is trimmed. -/
def sanitizeSpec (name : String) : String :=
  (pyStrip (name.toList.map (fun c => if badChars.contains c then '_' else c))).asString

/-- Zero-padded two-digit rendering (strftime field). -/
def pad2 (n : Nat) : String :=
  if n < 10 then "0" ++ toString n else toString n

/-- Zero-padded four-digit rendering (strftime year). -/
def pad4 (n : Nat) : String :=
  if n < 10 then "000" ++ toString n
  else if n < 100 then "00" ++ toString n
  else if n < 1000 then "0" ++ toString n
  else toString n

/-- date.strftime of the year-month-day_hourminutesecond pattern used for
the destination filename. -/
def fmtTimestamp (d : DateTime) : String :=
  pad4 d.year ++ "-" ++ pad2 d.month ++ "-" ++ pad2 d.day ++ "_" ++
    pad2 d.hour ++ pad2 d.minute ++ pad2 d.second

/-- The unsanitized destination filename built in _download_single. -/
def rawFileName (now : DateTime) (e : Entry) (dl : String) : String :=
  fmtTimestamp (parse_date now e) ++ "_" ++ extract_snap_id dl ++ infer_extension e

/-- The destination filename: the raw name run through the sanitizer. -/
def destFileName (now : DateTime) (e : Entry) (dl : String) : String :=
  sanitize_filename (rawFileName now e dl)

/-- output_root / str(date.year): the year subdirectory. -/
def yearDir (root : String) (d : DateTime) : String :=
  root ++ "/" ++ toString d.year

/-- The full destination path of one entry. -/
def destPath (root : String) (now : DateTime) (e : Entry) (dl : String) : String :=
  yearDir root (parse_date now e) ++ "/" ++ destFileName now e dl

deriving instance DecidableEq for Except

/-- The shared counters of MemoryDownloader, guarded by self.lock in the
source; the sequential embedding passes them explicitly. -/
structure Counters where
  completed : Nat
  skipped : Nat
  failed : Nat
deriving DecidableEq

/-- The file system under the output root: the set of directories created
so far and the files written so far, each with its byte content. -/
structure FS where
  dirs : List String
  files : List (String × List Nat)
deriving DecidableEq

/-- out_path.exists(). -/
def FS.fileExists (fs : FS) (p : String) : Bool :=
  fs.files.any (fun q => q.1 == p)

/-- ensure_dir: mkdir with parents and exist_ok. -/
def FS.ensureDir (fs : FS) (d : String) : FS :=
  if fs.dirs.contains d then fs else { fs with dirs := d :: fs.dirs }

/-- Opening the destination for writing and copying bytes into it. -/
def FS.writeFile (fs : FS) (p : String) (bytes : List Nat) : FS :=
  { fs with files := (p, bytes) :: fs.files }

/-- The two HTTP requests a worker can issue. -/
inductive NetEvent where
  | post (url : String)
  | get (url : String)
deriving DecidableEq

/-- Outcome of the content phase for a given real URL: a full body, a
failure before any byte is written (transport error or non-2xx status
raised by _safe_request), or a stream that dies after some bytes were
already copied into the open destination file. -/
inductive ContentRes where
  | ok (bytes : List Nat)
  | httpError (msg : String)
  | midStream (written : List Nat) (msg : String)

/-- How one entry ended. -/
inductive Outcome where
  | success
  | skipped
  | failed (msg : String)
deriving DecidableEq

/-- The external world of one batch: the wall clock read by _parse_date
and by the elapsed-time report, and the outcome of each HTTP phase.
tokenResp models _safe_request for the phase-1 POST: on success the
response text, on failure the RuntimeError message it raises (timeout,
transport error, or non-2xx status).  contentResp models the phase-2
streaming GET and the copy into the destination file. -/
structure Env where
  now : DateTime
  elapsed : String
  tokenResp : String → Except String String
  contentResp : String → ContentRes

/-- The error line _download_single emits on failure, carrying the
1-based entry index, the batch total and the failure message. -/
def errorLine (idx total : Nat) (msg : String) : String :=
  "[ERROR] Memory " ++ toString (idx + 1) ++ "/" ++ toString total ++ " failed: " ++ msg

/-- Result of one worker task: updated counters and file system, the
outcome, the network requests issued, and the lines sent to the log and
status channels. -/
structure StepResult where
  counters : Counters
  fs : FS
  outcome : Outcome
  net : List NetEvent
  logs : List String
  status : List String
deriving DecidableEq

/-- The except branch of _download_single: count the entry as failed and
completed, emit the error line to both channels, leave the file system
as given. -/
def failStep (idx total : Nat) (msg : String) (c : Counters) (fs : FS)
    (net : List NetEvent) : StepResult :=
  { counters := { completed := c.completed + 1, skipped := c.skipped, failed := c.failed + 1 },
    fs := fs, outcome := Outcome.failed msg, net := net,
    logs := [errorLine idx total msg], status := [errorLine idx total msg] }

/-- MemoryDownloader._download_single: resolve the entry, create the year
directory, skip if the destination exists, otherwise run the two-phase
fetch; every exception is caught and converted into a failure count. -/
def download_single (env : Env) (root : String) (idx total : Nat) (e : Entry)
    (c : Counters) (fs : FS) : StepResult :=
  match get_download_endpoint e with
  | Except.error msg => failStep idx total msg c fs []
  | Except.ok dl =>
    let out := destPath root env.now e dl
    let fs1 := fs.ensureDir (yearDir root (parse_date env.now e))
    if fs1.fileExists out then
      { counters := { completed := c.completed + 1, skipped := c.skipped + 1, failed := c.failed },
        fs := fs1, outcome := Outcome.skipped, net := [], logs := [], status := [] }
    else
      match env.tokenResp dl with
      | Except.error msg => failStep idx total msg c fs1 [NetEvent.post dl]
      | Except.ok txt =>
        let realUrl := (pyStrip txt.toList).asString
        match env.contentResp realUrl with
        | ContentRes.httpError msg =>
            failStep idx total msg c fs1 [NetEvent.post dl, NetEvent.get realUrl]
        | ContentRes.midStream written msg =>
            failStep idx total msg c (fs1.writeFile out written)
              [NetEvent.post dl, NetEvent.get realUrl]
        | ContentRes.ok bytes =>
            { counters := { completed := c.completed + 1, skipped := c.skipped, failed := c.failed },
              fs := fs1.writeFile out bytes, outcome := Outcome.success,
              net := [NetEvent.post dl, NetEvent.get realUrl], logs := [], status := [] }

/-- Aggregate state of one coordinator run. -/
structure BatchState where
  counters : Counters
  fs : FS
  outcomes : List Outcome
  net : List NetEvent
  logs : List String
  status : List String
deriving DecidableEq

/-- The submit-all loop of download_all: one task per entry, in manifest
order.  The source runs the tasks on a bounded thread pool; each task
touches only its own destination path and the lock-guarded counters, and
the counter updates commute, so the sequential fold is an admissible
serialization. -/
def runEntries (env : Env) (root : String) (total : Nat) :
    List Entry → Nat → Counters → FS → BatchState
  | [], _, c, fs => ⟨c, fs, [], [], [], []⟩
  | e :: rest, idx, c, fs =>
    let r := download_single env root idx total e c fs
    let s := runEntries env root total rest (idx + 1) r.counters r.fs
    ⟨s.counters, s.fs, r.outcome :: s.outcomes, r.net ++ s.net,
      r.logs ++ s.logs, r.status ++ s.status⟩

/-- The progress-percentage computation of the polling loop, including
its guard for an empty batch. -/
def progressPercent (done total : Nat) : Nat :=
  if total = 0 then 100 else done * 100 / total

/-- One progress status line (the source renders the percentage with one
decimal place; the integral part is modelled). -/
def progressLine (done total : Nat) (c : Counters) : String :=
  "Progress " ++ toString done ++ "/" ++ toString total ++ " (" ++
    toString (progressPercent done total) ++ "%) OK " ++
    toString (c.completed - c.skipped - c.failed) ++ " Skip " ++
    toString c.skipped ++ " Fail " ++ toString c.failed

/-- The opening log line of download_all. -/
def startLine (total workers : Nat) : String :=
  "Starting download of " ++ toString total ++ " memories with " ++
    toString workers ++ " parallel tasks..."

/-- The final summary line of download_all. -/
def summaryLine (elapsed : String) (c : Counters) : String :=
  "Finished in " ++ elapsed ++ "s (OK " ++
    toString (c.completed - c.skipped - c.failed) ++ ", Skip " ++
    toString c.skipped ++ ", Fail " ++ toString c.failed ++ ")"

/-- MemoryDownloader.download_all: submit every entry, drive the polling
loop until all tasks are done, then emit the summary.  Intermediate
progress ticks are lossy by design; the model keeps the guaranteed final
tick and the summary. -/
def download_all (env : Env) (root : String) (maxWorkers : Nat)
    (entries : List Entry) (fs : FS) : BatchState :=
  let total := entries.length
  let b := runEntries env root total entries 0 ⟨0, 0, 0⟩ fs
  { b with
    logs := startLine total maxWorkers :: (b.logs ++ [summaryLine env.elapsed b.counters]),
    status := b.status ++ [progressLine total total b.counters, summaryLine env.elapsed b.counters] }

/-- An empty file system. -/
def fs0 : FS := ⟨[], []⟩

/-- A fully resolvable entry used for concrete runs. -/
def eGood : Entry :=
  [("Date", "2021-03-04 05:06:07"), ("Media Type", "PHOTO"),
   ("Download Link", "http://x?a=1&mid=q")]

/-- An entry with no download endpoint. -/
def eNoLink : Entry := [("Date", "2021-03-04 05:06:07")]

/-- An entry whose date field parses under neither format. -/
def eBadDate : Entry := [("Download Link", "http://x?a=1&mid=q"), ("Date", "garbage")]

/-- A world where both HTTP phases succeed, at one wall-clock instant. -/
def envOkA : Env :=
  { now := ⟨2021, 1, 1, 0, 0, 0⟩, elapsed := "0.0",
    tokenResp := fun _ => Except.ok "http://real", contentResp := fun _ => ContentRes.ok [7] }

/-- The same healthy world at a later wall-clock instant. -/
def envOkB : Env :=
  { now := ⟨2022, 2, 2, 0, 0, 0⟩, elapsed := "0.0",
    tokenResp := fun _ => Except.ok "http://real", contentResp := fun _ => ContentRes.ok [7] }

/-- A world where every phase-1 POST times out. -/
def envTokenFail : Env :=
  { now := ⟨2021, 1, 1, 0, 0, 0⟩, elapsed := "0.0",
    tokenResp := fun _ => Except.error "Network timeout while contacting Snapchat servers",
    contentResp := fun _ => ContentRes.httpError "unreachable" }

/-- A world where the phase-2 stream dies after two bytes were copied
into the open destination file. -/
def envMid : Env :=
  { now := ⟨2021, 1, 1, 0, 0, 0⟩, elapsed := "0.0",
    tokenResp := fun _ => Except.ok "http://real",
    contentResp := fun _ => ContentRes.midStream [1, 2] "connection reset" }

theorem ensureDir_files (fs : FS) (d : String) : (fs.ensureDir d).files = fs.files := by
  unfold FS.ensureDir
  split <;> rfl

theorem fileExists_congr (fs fs2 : FS) (p : String) (h : fs.files = fs2.files) :
    fs.fileExists p = fs2.fileExists p := by
  unfold FS.fileExists
  rw [h]

theorem ds_completed (env : Env) (root : String) (idx total : Nat) (e : Entry)
    (c : Counters) (fs : FS) :
    (download_single env root idx total e c fs).counters.completed = c.completed + 1 := by
  unfold download_single
  cases get_download_endpoint e with
  | error msg => rfl
  | ok dl =>
    dsimp only
    split
    · rfl
    · cases env.tokenResp dl with
      | error msg => rfl
      | ok txt =>
        dsimp only
        cases env.contentResp ((pyStrip txt.toList).asString) <;> rfl

theorem ds_counters_cases (env : Env) (root : String) (idx total : Nat) (e : Entry)
    (c : Counters) (fs : FS) :
    (download_single env root idx total e c fs).counters =
        ⟨c.completed + 1, c.skipped + 1, c.failed⟩ ∨
    (download_single env root idx total e c fs).counters =
        ⟨c.completed + 1, c.skipped, c.failed + 1⟩ ∨
    (download_single env root idx total e c fs).counters =
        ⟨c.completed + 1, c.skipped, c.failed⟩ := by
  unfold download_single
  cases get_download_endpoint e with
  | error msg => right; left; rfl
  | ok dl =>
    dsimp only
    split
    · left; rfl
    · cases env.tokenResp dl with
      | error msg => right; left; rfl
      | ok txt =>
        dsimp only
        cases env.contentResp ((pyStrip txt.toList).asString)
        · right; right; rfl
        · right; left; rfl
        · right; left; rfl

theorem ds_files_mono (env : Env) (root : String) (idx total : Nat) (e : Entry)
    (c : Counters) (fs : FS) (p : String) (h : fs.fileExists p = true) :
    (download_single env root idx total e c fs).fs.fileExists p = true := by
  unfold download_single
  cases get_download_endpoint e with
  | error msg => exact h
  | ok dl =>
    dsimp only
    have h1 : (fs.ensureDir (yearDir root (parse_date env.now e))).fileExists p = true := by
      rw [fileExists_congr _ fs p (ensureDir_files fs _)]; exact h
    split
    · exact h1
    · cases env.tokenResp dl with
      | error msg => exact h1
      | ok txt =>
        dsimp only
        cases env.contentResp ((pyStrip txt.toList).asString) with
        | ok bytes =>
          dsimp only [failStep, FS.writeFile]
          unfold FS.fileExists at h1 ⊢
          simp only [List.any_cons, h1, Bool.or_true]
        | httpError msg => exact h1
        | midStream written msg =>
          dsimp only [failStep, FS.writeFile]
          unfold FS.fileExists at h1 ⊢
          simp only [List.any_cons, h1, Bool.or_true]

theorem ds_failed_ge (env : Env) (root : String) (idx total : Nat) (e : Entry)
    (c : Counters) (fs : FS) :
    c.failed ≤ (download_single env root idx total e c fs).counters.failed := by
  rcases ds_counters_cases env root idx total e c fs with h | h | h <;> rw [h] <;> dsimp only <;> omega

theorem run_completed (env : Env) (root : String) (total : Nat) (l : List Entry) :
    ∀ (idx : Nat) (c : Counters) (fs : FS),
    (runEntries env root total l idx c fs).counters.completed = c.completed + l.length := by
  induction l with
  | nil => intro idx c fs; simp [runEntries]
  | cons e rest ih =>
    intro idx c fs
    simp only [runEntries]
    rw [ih]
    rw [ds_completed]
    simp [List.length_cons]
    omega

theorem run_outcomes_length (env : Env) (root : String) (total : Nat) (l : List Entry) :
    ∀ (idx : Nat) (c : Counters) (fs : FS),
    (runEntries env root total l idx c fs).outcomes.length = l.length := by
  induction l with
  | nil => intro idx c fs; simp [runEntries]
  | cons e rest ih =>
    intro idx c fs
    simp only [runEntries, List.length_cons]
    rw [ih]

theorem run_files_mono (env : Env) (root : String) (total : Nat) (l : List Entry) :
    ∀ (idx : Nat) (c : Counters) (fs : FS) (p : String), fs.fileExists p = true →
    (runEntries env root total l idx c fs).fs.fileExists p = true := by
  induction l with
  | nil => intro idx c fs p h; exact h
  | cons e rest ih =>
    intro idx c fs p h
    simp only [runEntries]
    exact ih _ _ _ _ (ds_files_mono env root idx total e c fs p h)

theorem run_failed_ge (env : Env) (root : String) (total : Nat) (l : List Entry) :
    ∀ (idx : Nat) (c : Counters) (fs : FS),
    c.failed ≤ (runEntries env root total l idx c fs).counters.failed := by
  induction l with
  | nil => intro idx c fs; exact Nat.le_refl _
  | cons e rest ih =>
    intro idx c fs
    simp only [runEntries]
    exact Nat.le_trans (ds_failed_ge env root idx total e c fs) (ih _ _ _)

theorem ds_inv (env : Env) (root : String) (idx total : Nat) (e : Entry)
    (c : Counters) (fs : FS) (h : c.skipped + c.failed ≤ c.completed) :
    (download_single env root idx total e c fs).counters.skipped +
      (download_single env root idx total e c fs).counters.failed ≤
      (download_single env root idx total e c fs).counters.completed := by
  rcases ds_counters_cases env root idx total e c fs with hc | hc | hc <;>
    rw [hc] <;> dsimp only <;> omega

theorem run_inv (env : Env) (root : String) (total : Nat) (l : List Entry) :
    ∀ (idx : Nat) (c : Counters) (fs : FS), c.skipped + c.failed ≤ c.completed →
    (runEntries env root total l idx c fs).counters.skipped +
      (runEntries env root total l idx c fs).counters.failed ≤
      (runEntries env root total l idx c fs).counters.completed := by
  induction l with
  | nil => intro idx c fs h; exact h
  | cons e rest ih =>
    intro idx c fs h
    simp only [runEntries]
    exact ih _ _ _ (ds_inv env root idx total e c fs h)

theorem ds_nofail_dest (env : Env) (root : String) (idx total : Nat) (e : Entry)
    (c : Counters) (fs : FS)
    (h : (download_single env root idx total e c fs).counters.failed = c.failed) :
    ∃ dl, get_download_endpoint e = Except.ok dl ∧
      (download_single env root idx total e c fs).fs.fileExists
        (destPath root env.now e dl) = true := by
  cases hE : get_download_endpoint e with
  | error msg =>
    exfalso
    simp only [download_single, hE, failStep] at h
    omega
  | ok dl =>
    refine ⟨dl, rfl, ?_⟩
    by_cases hex : (fs.ensureDir (yearDir root (parse_date env.now e))).fileExists
        (destPath root env.now e dl) = true
    · simp only [download_single, hE, hex, if_true]
    · simp only [download_single, hE, hex, if_false, Bool.false_eq_true] at h ⊢
      cases hT : env.tokenResp dl with
      | error msg =>
        exfalso
        simp only [hT, failStep] at h
        omega
      | ok txt =>
        simp only [hT] at h ⊢
        cases hC : env.contentResp ((pyStrip txt.toList).asString) with
        | httpError msg =>
          exfalso
          simp only [hC, failStep] at h
          omega
        | midStream written msg =>
          exfalso
          simp only [hC, failStep] at h
          omega
        | ok bytes =>
          simp only [hC, FS.writeFile, FS.fileExists, List.any_cons, beq_self_eq_true,
            Bool.true_or]

theorem run_nofail_dests (env : Env) (root : String) (total : Nat) (l : List Entry) :
    ∀ (idx : Nat) (c : Counters) (fs : FS),
    (runEntries env root total l idx c fs).counters.failed = c.failed →
    ∀ e ∈ l, ∃ dl, get_download_endpoint e = Except.ok dl ∧
      (runEntries env root total l idx c fs).fs.fileExists
        (destPath root env.now e dl) = true := by
  induction l with
  | nil => intro idx c fs _ e he; exact absurd he (List.not_mem_nil e)
  | cons e0 rest ih =>
    intro idx c fs h e he
    have hstep : c.failed ≤ (download_single env root idx total e0 c fs).counters.failed :=
      ds_failed_ge env root idx total e0 c fs
    have hrest : (download_single env root idx total e0 c fs).counters.failed ≤
        (runEntries env root total (e0 :: rest) idx c fs).counters.failed := by
      simp only [runEntries]
      exact run_failed_ge env root total rest _ _ _
    have hmid : (download_single env root idx total e0 c fs).counters.failed = c.failed := by
      omega
    rcases List.mem_cons.mp he with rfl | hmem
    · obtain ⟨dl, hdl, hex⟩ := ds_nofail_dest env root idx total e c fs hmid
      refine ⟨dl, hdl, ?_⟩
      simp only [runEntries]
      exact run_files_mono env root total rest _ _ _ _ hex
    · have hfin : (runEntries env root total rest (idx + 1)
          (download_single env root idx total e0 c fs).counters
          (download_single env root idx total e0 c fs).fs).counters.failed =
          (download_single env root idx total e0 c fs).counters.failed := by
        have : (runEntries env root total (e0 :: rest) idx c fs).counters =
            (runEntries env root total rest (idx + 1)
              (download_single env root idx total e0 c fs).counters
              (download_single env root idx total e0 c fs).fs).counters := by
          simp only [runEntries]
        rw [this] at h
        omega
      obtain ⟨dl, hdl, hex⟩ := ih (idx + 1) _ _ hfin e hmem
      refine ⟨dl, hdl, ?_⟩
      simp only [runEntries]
      exact hex

theorem destPath_parseable (root : String) (e : Entry) (dl : String) (now1 now2 : DateTime)
    (h : (parseDateOpt e).isSome = true) :
    destPath root now1 e dl = destPath root now2 e dl := by
  obtain ⟨d, hd⟩ := Option.isSome_iff_exists.mp h
  simp only [destPath, yearDir, destFileName, rawFileName, parse_date, hd, Option.getD_some]

theorem ds_skip (env : Env) (root : String) (idx total : Nat) (e : Entry)
    (c : Counters) (fs : FS) (dl : String)
    (hE : get_download_endpoint e = Except.ok dl)
    (hex : fs.fileExists (destPath root env.now e dl) = true) :
    (download_single env root idx total e c fs).counters =
      ⟨c.completed + 1, c.skipped + 1, c.failed⟩ ∧
    (download_single env root idx total e c fs).fs.files = fs.files ∧
    (download_single env root idx total e c fs).outcome = Outcome.skipped ∧
    (download_single env root idx total e c fs).net = [] := by
  have hex1 : (fs.ensureDir (yearDir root (parse_date env.now e))).fileExists
      (destPath root env.now e dl) = true := by
    rw [fileExists_congr _ fs _ (ensureDir_files fs _)]; exact hex
  simp only [download_single, hE, hex1, if_true]
  refine ⟨by trivial, ensureDir_files fs _, by trivial, by trivial⟩

theorem run_allskip (env : Env) (root : String) (total : Nat) (l : List Entry) :
    ∀ (idx : Nat) (c : Counters) (fs : FS),
    (∀ e ∈ l, ∃ dl, get_download_endpoint e = Except.ok dl ∧
        fs.fileExists (destPath root env.now e dl) = true) →
    (runEntries env root total l idx c fs).counters.skipped = c.skipped + l.length ∧
    (runEntries env root total l idx c fs).fs.files = fs.files := by
  induction l with
  | nil => intro idx c fs _; exact ⟨rfl, rfl⟩
  | cons e0 rest ih =>
    intro idx c fs hall
    obtain ⟨dl, hdl, hex⟩ := hall e0 (List.mem_cons_self e0 rest)
    obtain ⟨hc, hf, _, _⟩ := ds_skip env root idx total e0 c fs dl hdl hex
    have hall2 : ∀ e ∈ rest, ∃ dl2, get_download_endpoint e = Except.ok dl2 ∧
        (download_single env root idx total e0 c fs).fs.fileExists
          (destPath root env.now e dl2) = true := by
      intro e he
      obtain ⟨dl2, hdl2, hex2⟩ := hall e (List.mem_cons_of_mem e0 he)
      exact ⟨dl2, hdl2, by rw [fileExists_congr _ fs _ hf]; exact hex2⟩
    obtain ⟨hs, hfs⟩ := ih (idx + 1) (download_single env root idx total e0 c fs).counters
      (download_single env root idx total e0 c fs).fs hall2
    constructor
    · simp only [runEntries]
      rw [hs, hc]
      simp [List.length_cons]
      omega
    · simp only [runEntries]
      rw [hfs, hf]

theorem run_append (env : Env) (root : String) (total : Nat) (l1 l2 : List Entry) :
    ∀ (idx : Nat) (c : Counters) (fs : FS),
    (runEntries env root total (l1 ++ l2) idx c fs).counters =
      (runEntries env root total l2 (idx + l1.length)
        (runEntries env root total l1 idx c fs).counters
        (runEntries env root total l1 idx c fs).fs).counters ∧
    (runEntries env root total (l1 ++ l2) idx c fs).fs =
      (runEntries env root total l2 (idx + l1.length)
        (runEntries env root total l1 idx c fs).counters
        (runEntries env root total l1 idx c fs).fs).fs := by
  induction l1 with
  | nil => intro idx c fs; simp [runEntries]
  | cons e t ih =>
    intro idx c fs
    have harith : idx + 1 + t.length = idx + (t.length + 1) := by omega
    simp only [List.cons_append, runEntries, List.length_cons]
    rw [← harith]
    exact ih (idx + 1) _ _

/-- Claim C1: every entry processed by a batch increments the completed
counter exactly once, whichever of the three outcomes it has; at batch
end completed equals the number of entries; and after any prefix of the
batch the counters satisfy completed at least skipped plus failed. -/
theorem C1_completed_invariants :
    (∀ (env : Env) (root : String) (idx total : Nat) (e : Entry) (c : Counters) (fs : FS),
      (download_single env root idx total e c fs).counters.completed = c.completed + 1) ∧
    (∀ (env : Env) (root : String) (w : Nat) (entries : List Entry) (fs : FS),
      (download_all env root w entries fs).counters.completed = entries.length) ∧
    (∀ (env : Env) (root : String) (w : Nat) (entries : List Entry) (fs : FS) (k : Nat),
      (runEntries env root entries.length (entries.take k) 0 ⟨0, 0, 0⟩ fs).counters.skipped +
        (runEntries env root entries.length (entries.take k) 0 ⟨0, 0, 0⟩ fs).counters.failed ≤
        (runEntries env root entries.length (entries.take k) 0 ⟨0, 0, 0⟩ fs).counters.completed) := by
  refine ⟨ds_completed, ?_, ?_⟩
  · intro env root w entries fs
    have := run_completed env root entries.length entries 0 ⟨0, 0, 0⟩ fs
    simpa [download_all] using this
  · intro env root w entries fs k
    exact run_inv env root entries.length (entries.take k) 0 ⟨0, 0, 0⟩ fs (by simp)

/-- Claim C2 (amended): an entry whose resolved destination file already
exists is counted as skipped and completed, performs no network exchange
and writes no bytes; consequently, when a run reports no failures and
every entry's date field parses, running the same batch again with the
same output root reports every entry as skipped and leaves every
destination file unchanged. -/
theorem C2_skip_and_idempotence :
    (∀ (env : Env) (root : String) (idx total : Nat) (e : Entry) (c : Counters) (fs : FS)
        (dl : String),
      get_download_endpoint e = Except.ok dl →
      fs.fileExists (destPath root env.now e dl) = true →
      (download_single env root idx total e c fs).outcome = Outcome.skipped ∧
      (download_single env root idx total e c fs).counters =
        ⟨c.completed + 1, c.skipped + 1, c.failed⟩ ∧
      (download_single env root idx total e c fs).net = [] ∧
      (download_single env root idx total e c fs).fs.files = fs.files) ∧
    (∀ (env1 env2 : Env) (root : String) (w : Nat) (entries : List Entry) (fs : FS),
      (∀ e ∈ entries, (parseDateOpt e).isSome = true) →
      (download_all env1 root w entries fs).counters.failed = 0 →
      (download_all env2 root w entries
          (download_all env1 root w entries fs).fs).counters.skipped = entries.length ∧
      (download_all env2 root w entries
          (download_all env1 root w entries fs).fs).fs.files =
        (download_all env1 root w entries fs).fs.files) := by
  constructor
  · intro env root idx total e c fs dl hE hex
    obtain ⟨hc, hf, ho, hn⟩ := ds_skip env root idx total e c fs dl hE hex
    exact ⟨ho, hc, hn, hf⟩
  · intro env1 env2 root w entries fs hdates hfail
    have hfail2 : (runEntries env1 root entries.length entries 0 ⟨0, 0, 0⟩ fs).counters.failed =
        (⟨0, 0, 0⟩ : Counters).failed := by
      simp only [download_all] at hfail
      exact hfail
    have hdests := run_nofail_dests env1 root entries.length entries 0 ⟨0, 0, 0⟩ fs hfail2
    have hdests2 : ∀ e ∈ entries, ∃ dl, get_download_endpoint e = Except.ok dl ∧
        (download_all env1 root w entries fs).fs.fileExists
          (destPath root env2.now e dl) = true := by
      intro e he
      obtain ⟨dl, hdl, hex⟩ := hdests e he
      refine ⟨dl, hdl, ?_⟩
      rw [← destPath_parseable root e dl env1.now env2.now (hdates e he)]
      simp only [download_all]
      exact hex
    obtain ⟨hs, hf⟩ := run_allskip env2 root entries.length entries 0 ⟨0, 0, 0⟩
      (download_all env1 root w entries fs).fs hdests2
    constructor
    · simp only [download_all] at hs ⊢
      rw [hs]
      omega
    · simp only [download_all] at hf ⊢
      rw [hf]

/-- Claim C2 counterexample: as literally stated the idempotence claim
fails.  A batch whose single entry lacks a download endpoint reports the
entry as failed again, not skipped, on the second run; and a batch whose
single entry has an unparseable date succeeds on the first run yet is
re-resolved under the later wall clock on the second run, so it is
downloaded again rather than skipped. -/
theorem C2_counterexample :
    (¬ (download_all envOkA "/out" 16 [eNoLink]
        (download_all envOkA "/out" 16 [eNoLink] fs0).fs).counters.skipped =
        ([eNoLink] : List Entry).length) ∧
    ((download_all envOkA "/out" 16 [eBadDate] fs0).counters.failed = 0 ∧
     ¬ (download_all envOkB "/out" 16 [eBadDate]
        (download_all envOkA "/out" 16 [eBadDate] fs0).fs).counters.skipped =
        ([eBadDate] : List Entry).length) := by
  decide

theorem C2_witness :
    (parseDateOpt eGood).isSome = true ∧
    (download_all envOkA "/out" 16 [eGood] fs0).counters.failed = 0 ∧
    (download_all envOkB "/out" 16 [eGood]
        (download_all envOkA "/out" 16 [eGood] fs0).fs).counters.skipped =
      ([eGood] : List Entry).length :=
  ⟨by decide, by decide,
    (C2_skip_and_idempotence.2 envOkA envOkB "/out" 16 [eGood] fs0
      (by decide) (by decide)).1⟩

/-- Claim C3: the code contradicts the specification here.  A failed
content phase leaves the partially written destination file on disk, and
the next run of the same entry finds the destination path existing and
counts the entry as skipped, treating the partial file exactly like a
successful skip-target. -/
theorem C3_partial_file_treated_as_skip :
    (download_single envMid "/out" 0 1 eGood ⟨0, 0, 0⟩ fs0).outcome =
      Outcome.failed "connection reset" ∧
    (download_single envMid "/out" 0 1 eGood ⟨0, 0, 0⟩ fs0).fs.fileExists
      (destPath "/out" envMid.now eGood "http://x?a=1&mid=q") = true ∧
    (download_single envMid "/out" 0 1 eGood ⟨0, 0, 0⟩
        (download_single envMid "/out" 0 1 eGood ⟨0, 0, 0⟩ fs0).fs).outcome =
      Outcome.skipped ∧
    (download_single envMid "/out" 0 1 eGood ⟨0, 0, 0⟩
        (download_single envMid "/out" 0 1 eGood ⟨0, 0, 0⟩ fs0).fs).counters.skipped = 1 := by
  decide

theorem ensureDir_contains (fs : FS) (d : String) :
    (fs.ensureDir d).dirs.contains d = true := by
  unfold FS.ensureDir
  split
  · assumption
  · simp [List.contains_cons]

/-- Claim C4: an otherwise-valid entry whose phase-1 POST fails is
counted as failed and completed, no destination file is created, the
error line carrying the 1-based index, the batch total and the failure
message is emitted, and only the single POST was issued; the batch still
drives every entry to an outcome. -/
theorem C4_token_phase_failure :
    (∀ (env : Env) (root : String) (idx total : Nat) (e : Entry) (c : Counters) (fs : FS)
        (dl msg : String),
      get_download_endpoint e = Except.ok dl →
      fs.fileExists (destPath root env.now e dl) = false →
      env.tokenResp dl = Except.error msg →
      (download_single env root idx total e c fs).counters =
        ⟨c.completed + 1, c.skipped, c.failed + 1⟩ ∧
      (download_single env root idx total e c fs).outcome = Outcome.failed msg ∧
      (download_single env root idx total e c fs).fs.files = fs.files ∧
      (download_single env root idx total e c fs).logs = [errorLine idx total msg] ∧
      (download_single env root idx total e c fs).net = [NetEvent.post dl]) ∧
    (∀ (env : Env) (root : String) (w : Nat) (entries : List Entry) (fs : FS),
      (download_all env root w entries fs).outcomes.length = entries.length ∧
      (download_all env root w entries fs).counters.completed = entries.length) := by
  constructor
  · intro env root idx total e c fs dl msg hE hex hT
    have hex1 : (fs.ensureDir (yearDir root (parse_date env.now e))).fileExists
        (destPath root env.now e dl) = false := by
      rw [fileExists_congr _ fs _ (ensureDir_files fs _)]; exact hex
    simp only [download_single, hE, hex1, Bool.false_eq_true, if_false, hT, failStep]
    refine ⟨by trivial, by trivial, ensureDir_files fs _, by trivial, by trivial⟩
  · intro env root w entries fs
    constructor
    · simp only [download_all]
      exact run_outcomes_length env root entries.length entries 0 ⟨0, 0, 0⟩ fs
    · simp only [download_all]
      rw [run_completed]
      simp

theorem C4_witness :
    get_download_endpoint eGood = Except.ok "http://x?a=1&mid=q" ∧
    fs0.fileExists (destPath "/out" envTokenFail.now eGood "http://x?a=1&mid=q") = false ∧
    (download_single envTokenFail "/out" 2 5 eGood ⟨0, 0, 0⟩ fs0).counters =
      ⟨0 + 1, 0, 0 + 1⟩ ∧
    (download_single envTokenFail "/out" 2 5 eGood ⟨0, 0, 0⟩ fs0).logs =
      [errorLine 2 5 "Network timeout while contacting Snapchat servers"] :=
  ⟨by decide, by decide,
    ((C4_token_phase_failure.1 envTokenFail "/out" 2 5 eGood ⟨0, 0, 0⟩ fs0
        "http://x?a=1&mid=q" "Network timeout while contacting Snapchat servers"
        (by decide) (by decide) (by decide)).1),
    ((C4_token_phase_failure.1 envTokenFail "/out" 2 5 eGood ⟨0, 0, 0⟩ fs0
        "http://x?a=1&mid=q" "Network timeout while contacting Snapchat servers"
        (by decide) (by decide) (by decide)).2.2.2.1)⟩

theorem run_headfail_ge (env : Env) (root : String) (total idx : Nat) (c : Counters)
    (fs : FS) (e : Entry) (post : List Entry) (msg : String)
    (hE : get_download_endpoint e = Except.error msg) :
    1 ≤ (runEntries env root total (e :: post) idx c fs).counters.failed := by
  simp only [runEntries]
  have h1 : (download_single env root idx total e c fs).counters.failed = c.failed + 1 := by
    simp [download_single, hE, failStep]
  have h2 := run_failed_ge env root total post (idx + 1)
    (download_single env root idx total e c fs).counters
    (download_single env root idx total e c fs).fs
  omega

/-- Claim C5: an entry without a usable download endpoint fails with the
malformed-entry error confined to that entry: it is counted as failed
and completed, touches neither the file system nor the network, emits
only the error line, and in any batch around it every other entry is
still processed to completion. -/
theorem C5_malformed_entry_isolated :
    (∀ (env : Env) (root : String) (idx total : Nat) (e : Entry) (c : Counters) (fs : FS)
        (msg : String),
      get_download_endpoint e = Except.error msg →
      (download_single env root idx total e c fs).outcome = Outcome.failed msg ∧
      (download_single env root idx total e c fs).counters =
        ⟨c.completed + 1, c.skipped, c.failed + 1⟩ ∧
      (download_single env root idx total e c fs).fs = fs ∧
      (download_single env root idx total e c fs).net = [] ∧
      (download_single env root idx total e c fs).logs = [errorLine idx total msg]) ∧
    (∀ (env : Env) (root : String) (w : Nat) (fs : FS) (e : Entry) (msg : String)
        (pre post : List Entry),
      get_download_endpoint e = Except.error msg →
      (download_all env root w (pre ++ e :: post) fs).counters.completed =
        pre.length + 1 + post.length ∧
      1 ≤ (download_all env root w (pre ++ e :: post) fs).counters.failed ∧
      (download_all env root w (pre ++ e :: post) fs).outcomes.length =
        pre.length + 1 + post.length) := by
  constructor
  · intro env root idx total e c fs msg hE
    simp only [download_single, hE, failStep]
    refine ⟨by trivial, by trivial, by trivial, by trivial, by trivial⟩
  · intro env root w fs e msg pre post hE
    refine ⟨?_, ?_, ?_⟩
    · simp only [download_all]
      rw [run_completed]
      simp [List.length_append]
      omega
    · simp only [download_all]
      rw [(run_append env root (pre ++ e :: post).length pre (e :: post) 0 ⟨0, 0, 0⟩ fs).1]
      exact run_headfail_ge env root (pre ++ e :: post).length (0 + pre.length) _ _ e post msg hE
    · simp only [download_all]
      rw [run_outcomes_length]
      simp [List.length_append]
      omega

theorem C5_witness :
    get_download_endpoint eNoLink = Except.error "No Download Link in memory entry" ∧
    (download_single envOkA "/out" 0 3 eNoLink ⟨0, 0, 0⟩ fs0).outcome =
      Outcome.failed "No Download Link in memory entry" ∧
    (download_all envOkA "/out" 16 ([eGood] ++ eNoLink :: [eGood]) fs0).counters.completed =
      ([eGood] : List Entry).length + 1 + ([eGood] : List Entry).length :=
  ⟨by decide,
    (C5_malformed_entry_isolated.1 envOkA "/out" 0 3 eNoLink ⟨0, 0, 0⟩ fs0
      "No Download Link in memory entry" (by decide)).1,
    (C5_malformed_entry_isolated.2 envOkA "/out" 16 fs0 eNoLink
      "No Download Link in memory entry" [eGood] [eGood] (by decide)).1⟩

/-- Claim C9: on an empty manifest the batch completes immediately with
all counters zero, touches no directories or files, still emits the
final progress tick and the summary line on both channels, and the
progress-percentage computation is well defined at total zero. -/
theorem C9_empty_manifest :
    ∀ (env : Env) (root : String) (w : Nat) (fs : FS),
      (download_all env root w [] fs).counters = ⟨0, 0, 0⟩ ∧
      (download_all env root w [] fs).fs = fs ∧
      (download_all env root w [] fs).outcomes = [] ∧
      (download_all env root w [] fs).logs =
        [startLine 0 w, summaryLine env.elapsed ⟨0, 0, 0⟩] ∧
      (download_all env root w [] fs).status =
        [progressLine 0 0 ⟨0, 0, 0⟩, summaryLine env.elapsed ⟨0, 0, 0⟩] ∧
      progressPercent 0 0 = 100 := by
  intro env root w fs
  exact ⟨rfl, rfl, rfl, rfl, rfl, rfl⟩

/-- Claim C10: once an entry has a usable endpoint, the year directory is
created whatever the later outcome is, so skipped entries and entries
failing in either HTTP phase still leave the year directory on disk,
while an entry without an endpoint leaves the file system untouched. -/
theorem C10_year_directory :
    (∀ (env : Env) (root : String) (idx total : Nat) (e : Entry) (c : Counters) (fs : FS)
        (dl : String),
      get_download_endpoint e = Except.ok dl →
      (download_single env root idx total e c fs).fs.dirs =
        (fs.ensureDir (yearDir root (parse_date env.now e))).dirs ∧
      (download_single env root idx total e c fs).fs.dirs.contains
        (yearDir root (parse_date env.now e)) = true) ∧
    (∀ (env : Env) (root : String) (idx total : Nat) (e : Entry) (c : Counters) (fs : FS)
        (msg : String),
      get_download_endpoint e = Except.error msg →
      (download_single env root idx total e c fs).fs = fs) := by
  constructor
  · intro env root idx total e c fs dl hE
    have hd : (download_single env root idx total e c fs).fs.dirs =
        (fs.ensureDir (yearDir root (parse_date env.now e))).dirs := by
      simp only [download_single, hE]
      split
      · rfl
      · cases env.tokenResp dl with
        | error msg => rfl
        | ok txt =>
          dsimp only
          cases env.contentResp ((pyStrip txt.toList).asString) <;>
            simp [failStep, FS.writeFile]
    refine ⟨hd, ?_⟩
    rw [hd]
    exact ensureDir_contains fs _
  · intro env root idx total e c fs msg hE
    simp [download_single, hE, failStep]

theorem C10_witness :
    get_download_endpoint eGood = Except.ok "http://x?a=1&mid=q" ∧
    (download_single envTokenFail "/out" 0 1 eGood ⟨0, 0, 0⟩ fs0).fs.dirs.contains
      (yearDir "/out" (parse_date envTokenFail.now eGood)) = true :=
  ⟨by decide,
    (C10_year_directory.1 envTokenFail "/out" 0 1 eGood ⟨0, 0, 0⟩ fs0
      "http://x?a=1&mid=q" (by decide)).2⟩

theorem containsSub_eq_isSome (pat : List Char) (l : List Char) :
    containsSub pat l = (indexOfSub pat l).isSome := by
  induction l with
  | nil =>
    simp only [containsSub, indexOfSub]
    split <;> simp_all [List.isEmpty_iff]
  | cons c t ih =>
    simp only [containsSub, indexOfSub]
    by_cases h : pat.isPrefixOf (c :: t) = true
    · simp [h]
    · simp only [Bool.not_eq_true] at h
      simp [h, ih]

theorem afterFirst_of_indexOf (pat : List Char) (l : List Char) :
    ∀ i, indexOfSub pat l = some i → afterFirst pat l = l.drop (i + pat.length) := by
  induction l with
  | nil =>
    intro i h
    simp only [indexOfSub] at h
    split at h
    · simp [afterFirst]
    · exact absurd h (by simp)
  | cons c t ih =>
    intro i h
    simp only [indexOfSub] at h
    by_cases hp : pat.isPrefixOf (c :: t) = true
    · simp only [hp, if_true] at h
      obtain rfl : (0 : Nat) = i := Option.some.inj h
      simp [afterFirst, hp]
    · simp only [Bool.not_eq_true] at hp
      simp only [hp, Bool.false_eq_true, if_false, Option.map_eq_some'] at h
      obtain ⟨j, hj, rfl⟩ := h
      simp only [afterFirst, hp, Bool.false_eq_true, if_false]
      rw [ih j hj]
      simp [Nat.add_right_comm]

theorem beforeFirst_amp (l : List Char) :
    beforeFirst ampMark l = l.takeWhile (fun c => c != '&') := by
  induction l with
  | nil => rfl
  | cons c t ih =>
    by_cases h : c = '&'
    · subst h
      simp [beforeFirst, ampMark, List.takeWhile_cons, List.isPrefixOf]
    · have h1 : (('&' : Char) == c) = false := by
        simp only [beq_eq_false_iff_ne]
        exact fun hc => absurd hc.symm h
      have h2 : (c != '&') = true := by
        simp only [bne_iff_ne]
        exact h
      simp [beforeFirst, ampMark, List.takeWhile_cons, List.isPrefixOf, h1, h2]
      simpa [ampMark] using ih

/-- Claim C7: the split-based identifier extraction of the source agrees
with the specification reading on every endpoint URL: first the
ampersand-mid marker, else the id marker, taking the substring after the
marker up to the next ampersand or the end of the string, and the
literal id when neither marker occurs. -/
theorem C7_snap_id_spec : ∀ dl : String, extract_snap_id dl = snapIdSpec dl := by
  intro dl
  unfold extract_snap_id snapIdSpec
  cases hm : indexOfSub midMark dl.toList with
  | some i =>
    have hc : containsSub midMark dl.toList = true := by
      rw [containsSub_eq_isSome, hm]; rfl
    simp only [hc, if_true, hm]
    rw [afterFirst_of_indexOf midMark dl.toList i hm, beforeFirst_amp]
  | none =>
    have hc : containsSub midMark dl.toList = false := by
      rw [containsSub_eq_isSome, hm]; rfl
    simp only [hc, Bool.false_eq_true, if_false]
    cases hi : indexOfSub idMark dl.toList with
    | some j =>
      have hc2 : containsSub idMark dl.toList = true := by
        rw [containsSub_eq_isSome, hi]; rfl
      simp only [hc2, if_true, hm, hi]
      rw [afterFirst_of_indexOf idMark dl.toList j hi, beforeFirst_amp]
    | none =>
      have hc2 : containsSub idMark dl.toList = false := by
        rw [containsSub_eq_isSome, hi]; rfl
      simp only [hc2, Bool.false_eq_true, if_false, hm, hi]

theorem foldl_replace_nil (cs : List Char) (r : Char) :
    cs.foldl (fun acc c => replaceChar c r acc) [] = [] := by
  induction cs with
  | nil => rfl
  | cons c t ih => simpa [replaceChar] using ih

theorem foldl_replace_cons (cs : List Char) (r a : Char) (l : List Char) :
    cs.foldl (fun acc c => replaceChar c r acc) (a :: l) =
      (cs.foldl (fun x c => if x = c then r else x) a) ::
        cs.foldl (fun acc c => replaceChar c r acc) l := by
  induction cs generalizing a l with
  | nil => rfl
  | cons c t ih =>
    simp only [List.foldl_cons, replaceChar, List.map_cons]
    exact ih _ _

theorem charFold_id (cs : List Char) (r b : Char) (h : ∀ c ∈ cs, b ≠ c) :
    cs.foldl (fun x c => if x = c then r else x) b = b := by
  induction cs with
  | nil => rfl
  | cons c t ih =>
    simp only [List.foldl_cons, h c (List.mem_cons_self c t), if_false]
    exact ih fun c2 hc2 => h c2 (List.mem_cons_of_mem c hc2)

theorem charFold_mem (cs : List Char) (a : Char) (hu : ('_' : Char) ∉ cs) :
    cs.foldl (fun x c => if x = c then '_' else x) a =
      if cs.contains a then '_' else a := by
  induction cs generalizing a with
  | nil => simp
  | cons c t ih =>
    have hut : ('_' : Char) ∉ t := fun hm => hu (List.mem_cons_of_mem c hm)
    simp only [List.foldl_cons]
    by_cases h : a = c
    · subst h
      rw [if_pos rfl, charFold_id t '_' '_'
        (fun c2 hc2 heq => hu (heq ▸ List.mem_cons_of_mem a hc2))]
      have : (a :: t).contains a = true := by
        simp [List.contains_cons]
      rw [this, if_pos rfl]
    · rw [if_neg h, ih a hut]
      have : (c :: t).contains a = t.contains a := by
        have hba : (a == c) = false := beq_eq_false_iff_ne.mpr h
        rw [List.contains_cons, hba, Bool.false_or]
      rw [this]

theorem sanitizeCore_map (l : List Char) :
    sanitizeCore l = l.map (fun c => if badChars.contains c then '_' else c) := by
  induction l with
  | nil => simpa [sanitizeCore] using foldl_replace_nil badChars '_'
  | cons a t ih =>
    unfold sanitizeCore at ih ⊢
    rw [foldl_replace_cons, ih, List.map_cons,
      charFold_mem badChars a (by decide)]

/-- Claim C8: the sanitizer loop of the source replaces each occurrence
of every reserved character with an underscore and trims surrounding
whitespace, exactly as the specification words it, and it is the
function applied to the destination filename used in path
construction. -/
theorem C8_sanitizer :
    (∀ s : String, sanitize_filename s = sanitizeSpec s) ∧
    (∀ (now : DateTime) (e : Entry) (dl : String),
      destFileName now e dl = sanitize_filename (rawFileName now e dl)) := by
  constructor
  · intro s
    unfold sanitize_filename sanitizeSpec
    rw [sanitizeCore_map]
  · intro now e dl
    rfl

theorem removeUTC_append_utc (s : List Char) :
    removeUTC (s ++ [' ', 'U', 'T', 'C']) = removeUTC s := by
  induction s using removeUTC.induct with
  | case1 => simp [removeUTC]
  | case2 c => simp [removeUTC]
  | case3 c c2 => simp [removeUTC]
  | case4 c c2 c3 => simp [removeUTC]
  | case5 c c2 c3 c4 rest hcond ih =>
    obtain ⟨rfl, rfl, rfl, rfl⟩ := hcond
    simp only [List.cons_append, removeUTC, and_self, if_true]
    exact ih
  | case6 c c2 c3 c4 rest hcond ih =>
    simp only [List.cons_append, removeUTC, if_neg hcond, List.append_eq]
    exact congrArg (List.cons c) ih

theorem rawDate_DateKey (v : String) : rawDate [("Date", v)] = v := by
  by_cases hv : v = ""
  · subst hv
    rfl
  · simp [rawDate, getField, List.find?, pyOr, hv]

theorem rawDate_dateKey (v : String) : rawDate [("date", v)] = v := by
  by_cases hv : v = ""
  · subst hv
    rfl
  · simp [rawDate, getField, List.find?, pyOr, hv]

theorem parse_date_DateKey (now : DateTime) (v : String) :
    parse_date now [("Date", v)] = (parseRaw (pyStrip (removeUTC v.toList))).getD now := by
  unfold parse_date parseDateOpt
  rw [rawDate_DateKey]

/-- Claim C6 (amended): timestamp parsing reads the field stored under
exactly the keys Date or date (other casings are not consulted); strips
the space-U-T-C marker, in particular a trailing one; tries the
whitespace-separated pattern, whose separating blank strptime matches as
one or more whitespace characters, and then the T-separated pattern,
whose letter T strptime matches in either case, in that order; and when
both fail or the field is absent it substitutes the supplied current
time, so no entry fails resolution because of its date field. -/
theorem C6_date_parsing :
    (∀ (now : DateTime) (k v : String), k ≠ "Date" → k ≠ "date" →
      parse_date now [(k, v)] = now) ∧
    (∀ (now : DateTime) (v : String),
      parse_date now [("date", v)] = parse_date now [("Date", v)]) ∧
    (∀ (now : DateTime) (v : String) (d : DateTime),
      parseFmt SepKind.spaces (pyStrip (removeUTC v.toList)) = some d →
      parse_date now [("Date", v)] = d) ∧
    (∀ (now : DateTime) (v : String) (d : DateTime),
      parseFmt SepKind.spaces (pyStrip (removeUTC v.toList)) = none →
      parseFmt SepKind.letterT (pyStrip (removeUTC v.toList)) = some d →
      parse_date now [("Date", v)] = d) ∧
    (∀ (now : DateTime) (v : String),
      parseFmt SepKind.spaces (pyStrip (removeUTC v.toList)) = none →
      parseFmt SepKind.letterT (pyStrip (removeUTC v.toList)) = none →
      parse_date now [("Date", v)] = now) ∧
    (∀ now : DateTime, parse_date now [] = now) ∧
    (∀ s : List Char, removeUTC (s ++ [' ', 'U', 'T', 'C']) = removeUTC s) := by
  refine ⟨?_, ?_, ?_, ?_, ?_, ?_, removeUTC_append_utc⟩
  · intro now k v h1 h2
    have hk1 : (k == "Date") = false := beq_eq_false_iff_ne.mpr h1
    have hk2 : (k == "date") = false := beq_eq_false_iff_ne.mpr h2
    have hr : rawDate [(k, v)] = "" := by
      simp [rawDate, getField, List.find?, hk1, hk2, pyOr]
    unfold parse_date parseDateOpt
    rw [hr]
    rw [show parseRaw (pyStrip (removeUTC ("" : String).toList)) = none from by decide]
    rfl
  · intro now v
    unfold parse_date parseDateOpt
    rw [rawDate_DateKey, rawDate_dateKey]
  · intro now v d h
    rw [parse_date_DateKey]
    unfold parseRaw
    rw [h]
    rfl
  · intro now v d h1 h2
    rw [parse_date_DateKey]
    unfold parseRaw
    rw [h1, h2]
    rfl
  · intro now v h1 h2
    rw [parse_date_DateKey]
    unfold parseRaw
    rw [h1, h2]
    rfl
  · intro now
    unfold parse_date
    rw [show parseDateOpt [] = none from by decide]
    rfl

/-- Claim C6 counterexample: the field lookup is not case-insensitive.
An entry carrying the date only under the upper-case key DATE falls back
to the current time instead of the parseable value that a Date key
yields. -/
theorem C6_counterexample :
    parse_date ⟨1999, 1, 2, 3, 4, 5⟩ [("DATE", "2021-03-04 05:06:07")] =
      ⟨1999, 1, 2, 3, 4, 5⟩ ∧
    parse_date ⟨1999, 1, 2, 3, 4, 5⟩ [("Date", "2021-03-04 05:06:07")] =
      ⟨2021, 3, 4, 5, 6, 7⟩ ∧
    (⟨1999, 1, 2, 3, 4, 5⟩ : DateTime) ≠ ⟨2021, 3, 4, 5, 6, 7⟩ := by
  decide

theorem C6_witness :
    (parseFmt SepKind.spaces (pyStrip (removeUTC ("2021-03-04 05:06:07 UTC").toList)) =
        some ⟨2021, 3, 4, 5, 6, 7⟩ ∧
      parse_date ⟨1999, 1, 2, 3, 4, 5⟩ [("Date", "2021-03-04 05:06:07 UTC")] =
        ⟨2021, 3, 4, 5, 6, 7⟩) ∧
    (parseFmt SepKind.spaces (pyStrip (removeUTC ("2021-03-04\t 05:06:07").toList)) =
        some ⟨2021, 3, 4, 5, 6, 7⟩ ∧
      parse_date ⟨1999, 1, 2, 3, 4, 5⟩ [("Date", "2021-03-04\t 05:06:07")] =
        ⟨2021, 3, 4, 5, 6, 7⟩) ∧
    (parseFmt SepKind.spaces (pyStrip (removeUTC ("2021-03-04t05:06:07").toList)) = none ∧
      parseFmt SepKind.letterT (pyStrip (removeUTC ("2021-03-04t05:06:07").toList)) =
        some ⟨2021, 3, 4, 5, 6, 7⟩ ∧
      parse_date ⟨1999, 1, 2, 3, 4, 5⟩ [("Date", "2021-03-04t05:06:07")] =
        ⟨2021, 3, 4, 5, 6, 7⟩) :=
  ⟨⟨by decide,
    C6_date_parsing.2.2.1 ⟨1999, 1, 2, 3, 4, 5⟩ "2021-03-04 05:06:07 UTC"
      ⟨2021, 3, 4, 5, 6, 7⟩ (by decide)⟩,
   ⟨by decide,
    C6_date_parsing.2.2.1 ⟨1999, 1, 2, 3, 4, 5⟩ "2021-03-04\t 05:06:07"
      ⟨2021, 3, 4, 5, 6, 7⟩ (by decide)⟩,
   ⟨by decide, by decide,
    C6_date_parsing.2.2.2.1 ⟨1999, 1, 2, 3, 4, 5⟩ "2021-03-04t05:06:07"
      ⟨2021, 3, 4, 5, 6, 7⟩ (by decide) (by decide)⟩⟩
